import Mathlib

/-!
# Adafruit_LC709203F: shallow embedding and verification

A shallow embedding of the Adafruit LC709203F battery-monitor driver.
Bytes are `Nat` values; the C `uint8_t`/`uint16_t` truncations appear as
explicit `% 256` / masks exactly where the C code performs (possibly
implicit) conversions.  The I2C transport collaborator is modelled by its
observable behaviour: the result of a `write_then_read` exchange is an
`Option (Nat × Nat × Nat)` (the three response bytes, or `none` on bus
failure), and a `write` call is modelled by the byte list handed to it.
The C out-parameter `uint16_t *data` of `readWord` is modelled by explicit
state passing: `readWord` takes the current value of the word and returns
the (success, new value) pair.  Floating-point unit conversions are
modelled over `ℚ` (the divisors are exact powers of ten; the spec's own
examples are exact decimal fractions).

The repository contains two revisions of the facade (`part_000` and
`part_001`); where they differ the definitions live in namespaces
`Variant0` (part_000) and `Variant1` (part_001).
-/

namespace LC709203F

/-- Default I2C device address (`LC709203F_I2CADDR_DEFAULT` = 0x0B). -/
def LC709203F_I2CADDR_DEFAULT : Nat := 0x0B

/-- Register command `LC709203F_CMD_THERMISTORB` (read/write thermistor B). -/
def LC709203F_CMD_THERMISTORB : Nat := 0x06

/-- Register command `LC709203F_CMD_CELLTEMPERATURE` (battery temperature). -/
def LC709203F_CMD_CELLTEMPERATURE : Nat := 0x08

/-- Register command `LC709203F_CMD_CELLVOLTAGE` (battery voltage). -/
def LC709203F_CMD_CELLVOLTAGE : Nat := 0x09

/-- Register command `LC709203F_CMD_CELLITE` (battery indicator to empty). -/
def LC709203F_CMD_CELLITE : Nat := 0x0F

/-- Register command `LC709203F_CMD_ICVERSION` (IC version). -/
def LC709203F_CMD_ICVERSION : Nat := 0x11

/-- Register command `LC709203F_CMD_BATTPROF` (battery profile). -/
def LC709203F_CMD_BATTPROF : Nat := 0x12

/-- One iteration of the inner loop of `lc709_crc8` (part_000, lines 293-295):
`crc = (crc & 0x80) ? (crc << 1) ^ POLYNOMIAL : (crc << 1)` on a `uint8_t`,
i.e. with truncation to 8 bits. -/
def lc709_crc8_round (crc : Nat) : Nat :=
  if crc &&& 0x80 ≠ 0 then ((crc <<< 1) ^^^ 0x07) % 256 else (crc <<< 1) % 256

/-- The inner loop of `lc709_crc8`: `i` iterations of `lc709_crc8_round`
(the source runs it with `i = 8`). -/
def lc709_crc8_rounds : Nat → Nat → Nat
  | crc, 0 => crc
  | crc, i + 1 => lc709_crc8_rounds (lc709_crc8_round crc) i

/-- Function `lc709_crc8` from part_000 (lines 286-298): CRC-8, polynomial 0x07,
initial value 0x00.  The outer loop XORs each data byte into the running
`uint8_t` value and then runs 8 inner rounds. -/
def lc709_crc8 (data : List Nat) : Nat :=
  data.foldl (fun crc b => lc709_crc8_rounds ((crc ^^^ b) % 256) 8) 0x00

/-- Function `crc8` from part_001 (lines 152-164); the body is byte-for-byte the same
algorithm as part_000's `lc709_crc8`. -/
def crc8 (data : List Nat) : Nat :=
  data.foldl (fun crc b => lc709_crc8_rounds ((crc ^^^ b) % 256) 8) 0x00

/-- Modelled from the spec: one round of the reference CRC-8/SMBUS
definition, stated with `Nat.testBit` for "the high bit was set" and
multiplication by two for the left shift, truncating to 8 bits. -/
def crc8_smbus_spec_round (c : Nat) : Nat :=
  if Nat.testBit c 7 then (2 * c ^^^ 0x07) % 256 else (2 * c) % 256

/-- Modelled from the spec: the reference CRC-8/SMBUS checksum — start from
0x00, XOR each input byte into the running 8-bit value, then perform 8
iterations of `crc8_smbus_spec_round`, with no input or output
reflection. -/
def crc8_smbus_spec (data : List Nat) : Nat :=
  data.foldl (fun crc b => (crc8_smbus_spec_round)^[8] ((crc ^^^ b) % 256)) 0x00

lemma lc709_crc8_round_eq_spec (c : Nat) :
    lc709_crc8_round c = crc8_smbus_spec_round c := by
  have h80 : c &&& 0x80 = (c.testBit 7).toNat * 2 ^ 7 := Nat.and_two_pow c 7
  cases hb : c.testBit 7 <;>
    simp [lc709_crc8_round, crc8_smbus_spec_round, h80, hb, Nat.shiftLeft_eq,
      mul_comm]

lemma lc709_crc8_rounds_eq_spec (n c : Nat) :
    lc709_crc8_rounds c n = (crc8_smbus_spec_round)^[n] c := by
  induction n generalizing c with
  | zero => rfl
  | succ k ih =>
      rw [lc709_crc8_rounds, ih, lc709_crc8_round_eq_spec,
        Function.iterate_succ_apply]

/-- C1: For every byte sequence, the checksum function (`lc709_crc8` of
part_000 and `crc8` of part_001 — both are given and both are plain
functions, hence deterministic) computes the reference CRC-8/SMBUS value:
starting from 0x00, each input byte is XORed into the running 8-bit value,
followed by 8 iterations of left-shift-by-one with XOR against polynomial
0x07 when the high bit was set, truncating to 8 bits each step, with no
input or output reflection. -/
theorem crc8_is_crc8_smbus (data : List Nat) :
    lc709_crc8 data = crc8_smbus_spec data ∧ crc8 data = crc8_smbus_spec data := by
  have hstep :
      (fun (crc b : Nat) => lc709_crc8_rounds ((crc ^^^ b) % 256) 8) =
      fun (crc b : Nat) => (crc8_smbus_spec_round)^[8] ((crc ^^^ b) % 256) := by
    funext crc b
    exact lc709_crc8_rounds_eq_spec 8 ((crc ^^^ b) % 256)
  constructor
  · rw [lc709_crc8, crc8_smbus_spec, hstep]
  · rw [crc8, crc8_smbus_spec, hstep]

/-- The five-byte checksum buffer built by `readWord` (identical in
part_000 lines 237-247 and part_001 lines 105-115): `reply[0]` is the
synthesized write-direction address byte, `reply[1]` the command,
`reply[2]` the read-direction address byte, `reply[3]`/`reply[4]` the two
data bytes returned by the transport.  The `% 256` mask records that the
bytes are stored into a `uint8_t` array. -/
def readWordBuf (command b3 b4 : Nat) : List Nat :=
  [(LC709203F_I2CADDR_DEFAULT * 2) % 256, command % 256,
   ((LC709203F_I2CADDR_DEFAULT * 2) % 256) ||| 0x1, b3 % 256, b4 % 256]

/-- Function `readWord` (part_000 lines 237-257, identical in part_001 lines
105-124).  `resp` is the transport's `write_then_read` result: `none` on
bus failure, otherwise the three response bytes stored into
`reply[3..5]`.  The C out-parameter `uint16_t *data` becomes explicit
state passing: the function takes the word's current value and returns
`(success, new value)`; on any failure the word is returned unchanged,
because the C code stores into `*data` only after the checksum test. -/
def readWord (command : Nat) (resp : Option (Nat × Nat × Nat))
    (data : Nat) : Bool × Nat :=
  match resp with
  | none => (false, data)
  | some (b3, b4, b5) =>
      let crc := lc709_crc8 (readWordBuf command b3 b4)
      if crc ≠ b5 % 256 then (false, data)
      else (true, ((b4 % 256) <<< 8) ||| (b3 % 256))

/-- The five-byte `send` buffer built by `writeWord` (identical in
part_000 lines 267-273 and part_001 lines 132-138): synthesized
write-direction address byte, command, value low byte (`data & 0xFF`),
value high byte (`data >> 8`, stored into a `uint8_t`), and the CRC over
the first four bytes. -/
def writeWordFrame (command data : Nat) : List Nat :=
  let send0 := (LC709203F_I2CADDR_DEFAULT * 2) % 256
  let send1 := command % 256
  let send2 := data &&& 0xFF
  let send3 := (data >>> 8) % 256
  [send0, send1, send2, send3, lc709_crc8 [send0, send1, send2, send3]]

namespace Variant0

/-- Bytes handed to the transport's `write` primitive by part_000's
`writeWord` (line 275): `i2c_dev->write(send + 1, 4)`, i.e. the four
frame bytes at indices 1..4. -/
def writeWord_sent (command data : Nat) : List Nat :=
  (writeWordFrame command data).drop 1

end Variant0

namespace Variant1

/-- Bytes handed to the transport's `write` primitive by part_001's
`writeWord` (line 140): `i2c_dev->write(send + 1, 5)`, i.e. five bytes
starting at index 1 of the five-element frame.  In this total embedding
each buffer access is an `Option`: index 5 is past the end of the frame,
so the fifth transmitted byte is `none`. -/
def writeWord_sent (command data : Nat) : List (Option Nat) :=
  let send := writeWordFrame command data
  [send.get? 1, send.get? 2, send.get? 3, send.get? 4, send.get? 5]

end Variant1

/-- C2: for every command byte and every 3-byte transport response,
`readWord` builds the 6-byte buffer `[address*2, command, address*2 | 1,
dataLow, dataHigh, responseChecksum]`, computes the CRC over the first 5
bytes, and when it equals the sixth byte it returns success with the
16-bit value `dataHigh <<< 8 ||| dataLow`. -/
theorem readWord_success (command b3 b4 b5 data : Nat)
    (hc : command < 256) (h3 : b3 < 256) (h4 : b4 < 256) (h5 : b5 < 256)
    (hcrc : lc709_crc8 [LC709203F_I2CADDR_DEFAULT * 2, command,
      LC709203F_I2CADDR_DEFAULT * 2 ||| 1, b3, b4] = b5) :
    readWord command (some (b3, b4, b5)) data = (true, (b4 <<< 8) ||| b3) := by
  have hbuf : readWordBuf command b3 b4 =
      [LC709203F_I2CADDR_DEFAULT * 2, command,
       LC709203F_I2CADDR_DEFAULT * 2 ||| 1, b3, b4] := by
    simp [readWordBuf, LC709203F_I2CADDR_DEFAULT, Nat.mod_eq_of_lt hc,
      Nat.mod_eq_of_lt h3, Nat.mod_eq_of_lt h4]
  rw [readWord, hbuf, hcrc]
  simp [Nat.mod_eq_of_lt h5, Nat.mod_eq_of_lt h3, Nat.mod_eq_of_lt h4]

set_option maxRecDepth 4000 in
/-- Witness for C2 at a concrete exchange: command 0x09, data bytes
0x74/0x0E, checksum 183 (the CRC of the first five buffer bytes); the
returned word is 0x0E74. -/
theorem readWord_success_witness :
    readWord 0x09 (some (0x74, 0x0E, 183)) 0 = (true, 0x0E74) := by
  have h := readWord_success 0x09 0x74 0x0E 183 0
    (by decide) (by decide) (by decide) (by decide) (by decide)
  simpa using h

lemma lc709_crc8_round_lt (c : Nat) : lc709_crc8_round c < 256 := by
  rw [lc709_crc8_round]
  split <;> exact Nat.mod_lt _ (by norm_num)

lemma lc709_crc8_rounds_lt (n c : Nat) (h : c < 256) :
    lc709_crc8_rounds c n < 256 := by
  induction n generalizing c with
  | zero => exact h
  | succ k ih =>
      rw [lc709_crc8_rounds]
      exact ih _ (lc709_crc8_round_lt c)

lemma lc709_crc8_lt (data : List Nat) : lc709_crc8 data < 256 := by
  rw [lc709_crc8]
  suffices h : ∀ (l : List Nat) (c : Nat), c < 256 →
      l.foldl (fun crc b => lc709_crc8_rounds ((crc ^^^ b) % 256) 8) c < 256 from
    h data 0x00 (by norm_num)
  intro l
  induction l with
  | nil => intro c hc; simpa using hc
  | cons b rest ih =>
      intro c hc
      exact ih _ (lc709_crc8_rounds_lt 8 _ (Nat.mod_lt _ (by norm_num)))

lemma shiftRight_shiftLeft_or_and (V : Nat) :
    ((V >>> 8) <<< 8) ||| (V &&& 0xFF) = V := by
  have h255 : (0xFF : Nat) = 2 ^ 8 - 1 := by norm_num
  apply Nat.eq_of_testBit_eq
  intro i
  rw [Nat.testBit_or, h255, Nat.and_pow_two_sub_one_eq_mod,
    Nat.testBit_shiftLeft, Nat.testBit_shiftRight, Nat.testBit_mod_two_pow]
  by_cases h : i < 8
  · have h8 : ¬ (8 ≤ i) := by omega
    simp [h, h8]
  · have h8 : 8 ≤ i := by omega
    have hi : 8 + (i - 8) = i := by omega
    simp [h, h8, hi]

/-- C4: whenever the transport exchange fails, or the response checksum
byte does not equal the CRC of the preceding five buffer bytes, `readWord`
returns the failure indication and leaves the caller's word unchanged. -/
theorem readWord_failure_no_store (command : Nat)
    (resp : Option (Nat × Nat × Nat)) (data : Nat)
    (h : ∀ b3 b4 b5, resp = some (b3, b4, b5) →
      lc709_crc8 (readWordBuf command b3 b4) ≠ b5 % 256) :
    readWord command resp data = (false, data) := by
  cases resp with
  | none => rfl
  | some t =>
      obtain ⟨b3, b4, b5⟩ := t
      have hne := h b3 b4 b5 rfl
      simp [readWord, hne]

set_option maxRecDepth 4000 in
/-- Witness for C4: a transport failure and a checksum mismatch (correct
checksum would be 183, response carries 184), both leaving the word
0x1234 untouched. -/
theorem readWord_failure_no_store_witness :
    readWord 0x09 none 0x1234 = (false, 0x1234) ∧
    readWord 0x09 (some (0x74, 0x0E, 184)) 0x1234 = (false, 0x1234) :=
  ⟨readWord_failure_no_store 0x09 none 0x1234
      (by intro b3 b4 b5 hb; cases hb),
   readWord_failure_no_store 0x09 (some (0x74, 0x0E, 184)) 0x1234
      (by intro b3 b4 b5 hb; cases hb; decide)⟩

/-- C5: round-trip — the frame produced by part_000's `writeWord` carries
the data bytes `V &&& 0xFF` and `V >>> 8`; feeding exactly those two bytes
back as the data bytes of a `readWord` response with a correct checksum
returns success with exactly `V`: the little-endian split and the
`dataHigh <<< 8 ||| dataLow` reassembly are mutually inverse. -/
theorem writeWord_readWord_roundtrip (command V data : Nat)
    (hc : command < 256) (hV : V < 65536) :
    Variant0.writeWord_sent command V =
      [command, V &&& 0xFF, (V >>> 8) % 256,
       lc709_crc8 [LC709203F_I2CADDR_DEFAULT * 2, command, V &&& 0xFF,
         (V >>> 8) % 256]] ∧
    readWord command
      (some (V &&& 0xFF, (V >>> 8) % 256,
        lc709_crc8 (readWordBuf command (V &&& 0xFF) ((V >>> 8) % 256))))
      data = (true, V) := by
  have hsh : V >>> 8 = V / 256 := by
    rw [Nat.shiftRight_eq_div_pow]
  have h1 : (V >>> 8) % 256 = V >>> 8 :=
    Nat.mod_eq_of_lt (by rw [hsh]; omega)
  have h2 : (V &&& 0xFF) % 256 = V &&& 0xFF := by
    have hm : (V &&& 0xFF) = V % 256 := by
      have : (0xFF : Nat) = 2 ^ 8 - 1 := by norm_num
      rw [this, Nat.and_pow_two_sub_one_eq_mod]
    rw [hm]
    exact Nat.mod_eq_of_lt (Nat.mod_lt _ (by norm_num))
  constructor
  · simp [Variant0.writeWord_sent, writeWordFrame, LC709203F_I2CADDR_DEFAULT,
      Nat.mod_eq_of_lt hc]
  · rw [readWord]
    rw [Nat.mod_eq_of_lt (lc709_crc8_lt _)]
    simp only [ne_eq, not_true_eq_false, if_false, ite_not, if_pos]
    simp only [h1, h2]
    rw [shiftRight_shiftLeft_or_and]

set_option maxRecDepth 4000 in
/-- Witness for C5 at command 0x06 and value 0x1234: the frame carries
data bytes 0x34/0x12, and reading them back (checksum 106) returns
0x1234. -/
theorem writeWord_readWord_roundtrip_witness :
    Variant0.writeWord_sent 0x06 0x1234 = [0x06, 0x34, 0x12, 189] ∧
    readWord 0x06 (some (0x34, 0x12, 106)) 0 = (true, 0x1234) := by
  have h := writeWord_readWord_roundtrip 0x06 0x1234 0 (by decide) (by decide)
  obtain ⟨hf, hr⟩ := h
  have harg : ((0x1234 &&& 0xFF : Nat), ((0x1234 >>> 8) % 256 : Nat),
      lc709_crc8 (readWordBuf 0x06 (0x1234 &&& 0xFF) ((0x1234 >>> 8) % 256)))
      = ((0x34 : Nat), (0x12 : Nat), (106 : Nat)) := by decide
  rw [harg] at hr
  exact ⟨hf.trans (by decide), hr⟩

/-- C8: in the part_001 facade, `writeWord` hands the transport a length
of 5 starting one byte into its 5-element frame, so on every call the
last transmitted byte comes from index 5 of a buffer whose valid indices
are 0..4: in this total embedding that access yields `none` — the last
byte on the wire is not defined by the constructed frame. -/
theorem writeWord_v1_sends_past_end (command data : Nat) :
    Variant1.writeWord_sent command data =
      [some (command % 256), some (data &&& 0xFF), some ((data >>> 8) % 256),
       some (lc709_crc8 [(LC709203F_I2CADDR_DEFAULT * 2) % 256, command % 256,
         data &&& 0xFF, (data >>> 8) % 256]), none] ∧
    (Variant1.writeWord_sent command data).length = 5 := by
  constructor <;> rfl

set_option maxRecDepth 4000 in
/-- C3 at a concrete input (command 0x06, value 0x1234): part_000's
`writeWord` hands the transport exactly the 4 bytes
`[command, low, high, CRC]` with the address byte absent, but part_001's
`writeWord` hands it 5 bytes, the fifth read from past the end of the
frame. -/
theorem writeWord_v1_not_four_bytes :
    Variant0.writeWord_sent 0x06 0x1234 = [0x06, 0x34, 0x12, 189] ∧
    (Variant0.writeWord_sent 0x06 0x1234).length = 4 ∧
    Variant1.writeWord_sent 0x06 0x1234 =
      [some 0x06, some 0x34, some 0x12, some 189, none] ∧
    (Variant1.writeWord_sent 0x06 0x1234).length ≠ 4 := by
  refine ⟨by decide, rfl, by decide, by decide⟩

/-- Modelled from the spec: the Arduino core's integer `map` used by
`getCellTemperature` (part_000 line 131) is not part of this repository;
the spec gives its formula as
`output = outLo + (input - inLo) * (outHi - outLo) / (inHi - inLo)`
with truncating integer arithmetic (`Int.tdiv` truncates toward zero, as
C `long` division does). -/
def map (x inLo inHi outLo outHi : Int) : Int :=
  outLo + Int.tdiv ((x - inLo) * (outHi - outLo)) (inHi - inLo)

namespace Variant0

/-- Getter `getICversion` (part_000 lines 90-94): zero-initialized local word,
read, return the word — the read's success flag is dropped. -/
def getICversion (resp : Option (Nat × Nat × Nat)) : Nat :=
  (readWord LC709203F_CMD_ICVERSION resp 0).2

/-- Getter `cellVoltage` (part_000 lines 108-112): raw millivolts over 1000. -/
def cellVoltage (resp : Option (Nat × Nat × Nat)) : ℚ :=
  ((readWord LC709203F_CMD_CELLVOLTAGE resp 0).2 : ℚ) / 1000

/-- Getter `cellPercent` (part_000 lines 118-122): raw tenths of a percent over
10, reported directly. -/
def cellPercent (resp : Option (Nat × Nat × Nat)) : ℚ :=
  ((readWord LC709203F_CMD_CELLITE resp 0).2 : ℚ) / 10

/-- Getter `getCellTemperature` (part_000 lines 128-133): linear remap of the raw
code from [0x9E4, 0xD04] to [-200, 600], then divided by 10. -/
def getCellTemperature (resp : Option (Nat × Nat × Nat)) : ℚ :=
  let temp := (readWord LC709203F_CMD_CELLTEMPERATURE resp 0).2
  ((map (temp : Int) 0x9E4 0xD04 (-200) 600 : Int) : ℚ) / 10

/-- Getter `getThermistorB` (part_000 lines 195-199). -/
def getThermistorB (resp : Option (Nat × Nat × Nat)) : Nat :=
  (readWord LC709203F_CMD_THERMISTORB resp 0).2

/-- Getter `getBattProfile` (part_000 lines 214-218). -/
def getBattProfile (resp : Option (Nat × Nat × Nat)) : Nat :=
  (readWord LC709203F_CMD_BATTPROF resp 0).2

end Variant0

namespace Variant1

/-- Getter `cellPercent` (part_001 lines 82-86): this facade revision reports
`100 - raw / 10` (percent to empty) instead of `raw / 10`. -/
def cellPercent (resp : Option (Nat × Nat × Nat)) : ℚ :=
  100 - ((readWord LC709203F_CMD_CELLITE resp 0).2 : ℚ) / 10

end Variant1

/-- Transport-session lifecycle events observable by a mock transport:
deletion of an `Adafruit_I2CDevice` handle and creation of a new one. -/
inductive BusEvent where
  | free (h : Nat)
  | alloc (h : Nat)
deriving DecidableEq

/-- The driver state relevant to session ownership: the `i2c_dev` member
(`NULL` initially, modelled as `none`). -/
structure LCState where
  i2c_dev : Option Nat
deriving DecidableEq

/-- The handle-lifecycle portion of `begin` (part_000 lines 52-61,
identical in part_001 lines 52-65): if `i2c_dev` is non-null it is
deleted, then a new device handle is allocated and stored.  `h` names the
freshly allocated handle.  The rest of `begin` (the transport `begin` call
and the configuration writes) does not touch handle ownership: on failure
the function returns early but the new handle stays stored in
`i2c_dev`. -/
def begin (s : LCState) (h : Nat) : LCState × List BusEvent :=
  match s.i2c_dev with
  | some old => ({ i2c_dev := some h }, [BusEvent.free old, BusEvent.alloc h])
  | none => ({ i2c_dev := some h }, [BusEvent.alloc h])

/-- Run a sequence of `begin` calls, collecting the lifecycle events. -/
def runBegins : LCState → List Nat → LCState × List BusEvent
  | s, [] => (s, [])
  | s, h :: rest =>
      let s1 := begin s h
      let s2 := runBegins s1.1 rest
      (s2.1, s1.2 ++ s2.2)

/-- Update the set of live (allocated and not yet freed) handles by one
lifecycle event. -/
def liveStep (acc : List Nat) : BusEvent → List Nat
  | BusEvent.alloc h => acc ++ [h]
  | BusEvent.free h => acc.erase h

/-- The handles still live after a trace of lifecycle events. -/
def liveHandles (events : List BusEvent) : List Nat :=
  events.foldl liveStep []

/-- C6: for every raw value `p` read from the indicator-to-empty register,
part_000's `cellPercent` returns `p / 10` (percent remaining), part_001's
returns `100 - p / 10` (percent to empty), and the two results sum to
exactly 100. -/
theorem cellPercent_variants_complement (resp : Option (Nat × Nat × Nat))
    (p : Nat) (h : readWord LC709203F_CMD_CELLITE resp 0 = (true, p)) :
    Variant0.cellPercent resp = (p : ℚ) / 10 ∧
    Variant1.cellPercent resp = 100 - (p : ℚ) / 10 ∧
    Variant0.cellPercent resp + Variant1.cellPercent resp = 100 := by
  have hp : (readWord LC709203F_CMD_CELLITE resp 0).2 = p := by rw [h]
  refine ⟨?_, ?_, ?_⟩ <;>
    simp [Variant0.cellPercent, Variant1.cellPercent, hp]

set_option maxRecDepth 4000 in
/-- Witness for C6 at raw value 755 (data bytes 0xF3/0x02, checksum 58):
part_000 reports 75.5 percent remaining, part_001 reports 24.5 percent to
empty. -/
theorem cellPercent_variants_complement_witness :
    Variant0.cellPercent (some (0xF3, 0x02, 58)) = 151 / 2 ∧
    Variant1.cellPercent (some (0xF3, 0x02, 58)) = 49 / 2 := by
  have h := cellPercent_variants_complement (some (0xF3, 0x02, 58)) 755
    (by decide)
  exact ⟨h.1.trans (by norm_num), h.2.1.trans (by norm_num)⟩

/-- C7: for every raw code `p` read from the cell-temperature register,
`getCellTemperature` computes the linear remap from [0x9E4, 0xD04] to
[-200, 600] by `outLo + (input - inLo) * (outHi - outLo) / (inHi - inLo)`
with truncating integer division, then divides by 10; raw 0x9E4 yields
-20.0 degrees and raw 0xD04 yields +60.0 degrees. -/
theorem getCellTemperature_remap (resp : Option (Nat × Nat × Nat)) (p : Nat)
    (h : readWord LC709203F_CMD_CELLTEMPERATURE resp 0 = (true, p)) :
    Variant0.getCellTemperature resp =
      (((-200 : Int) + Int.tdiv (((p : Int) - 0x9E4) * (600 - (-200)))
        (0xD04 - 0x9E4) : Int) : ℚ) / 10 ∧
    (p = 0x9E4 → Variant0.getCellTemperature resp = -20) ∧
    (p = 0xD04 → Variant0.getCellTemperature resp = 60) := by
  have hp : (readWord LC709203F_CMD_CELLTEMPERATURE resp 0).2 = p := by rw [h]
  refine ⟨?_, ?_, ?_⟩
  · simp [Variant0.getCellTemperature, map, hp]
  · rintro rfl
    have hm : map ((0x9E4 : Nat) : Int) 0x9E4 0xD04 (-200) 600 = -200 := by
      decide
    simp only [Variant0.getCellTemperature, hp, hm]
    norm_num
  · rintro rfl
    have hm : map ((0xD04 : Nat) : Int) 0x9E4 0xD04 (-200) 600 = 600 := by
      decide
    simp only [Variant0.getCellTemperature, hp, hm]
    norm_num

set_option maxRecDepth 4000 in
/-- Witness for C7 at the low endpoint: raw 0x9E4 (data bytes 0xE4/0x09,
checksum 85) yields -20.0 degrees C. -/
theorem getCellTemperature_remap_witness :
    Variant0.getCellTemperature (some (0xE4, 0x09, 85)) = -20 := by
  have h := getCellTemperature_remap (some (0xE4, 0x09, 85)) 0x9E4 (by decide)
  exact h.2.1 rfl

/-- C9: every `begin` call first deletes the previously held transport
handle (when one exists) and only then allocates the new one, so after any
sequence of `begin` calls starting from the initial NULL state the live
handles are exactly the currently stored one — at most one handle is owned
at any time and no prior handle is leaked. -/
theorem begin_releases_prior_handle :
    (∀ (s : LCState) (h : Nat),
      (begin s h).2 = (s.i2c_dev.toList.map BusEvent.free) ++ [BusEvent.alloc h] ∧
      (begin s h).1.i2c_dev = some h) ∧
    (∀ hs : List Nat,
      liveHandles (runBegins ⟨none⟩ hs).2 =
        (runBegins ⟨none⟩ hs).1.i2c_dev.toList ∧
      (liveHandles (runBegins ⟨none⟩ hs).2).length ≤ 1) := by
  have hstep : ∀ (hs : List Nat) (s : LCState),
      ((runBegins s hs).2).foldl liveStep s.i2c_dev.toList =
        (runBegins s hs).1.i2c_dev.toList := by
    intro hs
    induction hs with
    | nil => intro s; rfl
    | cons h rest ih =>
        intro s
        cases hd : s.i2c_dev with
        | none =>
            have : runBegins s (h :: rest) =
                ((runBegins ⟨some h⟩ rest).1,
                 [BusEvent.alloc h] ++ (runBegins ⟨some h⟩ rest).2) := by
              simp [runBegins, begin, hd]
            rw [this]
            simpa [List.foldl_append, liveStep] using ih ⟨some h⟩
        | some old =>
            have : runBegins s (h :: rest) =
                ((runBegins ⟨some h⟩ rest).1,
                 [BusEvent.free old, BusEvent.alloc h] ++
                   (runBegins ⟨some h⟩ rest).2) := by
              simp [runBegins, begin, hd]
            rw [this]
            have herase : liveStep (liveStep [old] (BusEvent.free old))
                (BusEvent.alloc h) = [h] := by
              simp [liveStep]
            simpa [List.foldl_append, herase] using ih ⟨some h⟩
  constructor
  · intro s h
    cases hd : s.i2c_dev <;> simp [begin, hd]
  · intro hs
    have h1 : liveHandles (runBegins ⟨none⟩ hs).2 =
        (runBegins ⟨none⟩ hs).1.i2c_dev.toList := hstep hs ⟨none⟩
    refine ⟨h1, ?_⟩
    rw [h1]
    cases (runBegins (⟨none⟩ : LCState) hs).1.i2c_dev <;> simp

lemma readWord_snd_of_fail (command : Nat) (resp : Option (Nat × Nat × Nat))
    (data : Nat) (h : (readWord command resp data).1 = false) :
    (readWord command resp data).2 = data := by
  cases resp with
  | none => rfl
  | some t =>
      obtain ⟨b3, b4, b5⟩ := t
      by_cases hc : lc709_crc8 (readWordBuf command b3 b4) ≠ b5 % 256
      · simp [readWord, hc]
      · exfalso
        simp [readWord, hc] at h

/-- C10 (amended): every getter that returns a value rather than a success
flag silently masks read failure — when `readWord` fails, each getter
returns the value derived from its zero-initialized local word: 0 for the
raw getters, 0 volts, 0.0 percent (part_000) or 100.0 percent (part_001),
and -273.2 degrees for the temperature getter. -/
theorem getters_mask_read_failure (resp : Option (Nat × Nat × Nat)) :
    ((readWord LC709203F_CMD_ICVERSION resp 0).1 = false →
      Variant0.getICversion resp = 0) ∧
    ((readWord LC709203F_CMD_CELLVOLTAGE resp 0).1 = false →
      Variant0.cellVoltage resp = 0) ∧
    ((readWord LC709203F_CMD_CELLITE resp 0).1 = false →
      Variant0.cellPercent resp = 0) ∧
    ((readWord LC709203F_CMD_CELLITE resp 0).1 = false →
      Variant1.cellPercent resp = 100) ∧
    ((readWord LC709203F_CMD_CELLTEMPERATURE resp 0).1 = false →
      Variant0.getCellTemperature resp = -2732 / 10) ∧
    ((readWord LC709203F_CMD_THERMISTORB resp 0).1 = false →
      Variant0.getThermistorB resp = 0) ∧
    ((readWord LC709203F_CMD_BATTPROF resp 0).1 = false →
      Variant0.getBattProfile resp = 0) := by
  refine ⟨?_, ?_, ?_, ?_, ?_, ?_, ?_⟩ <;> intro h
  · simp [Variant0.getICversion, readWord_snd_of_fail _ _ _ h]
  · simp [Variant0.cellVoltage, readWord_snd_of_fail _ _ _ h]
  · simp [Variant0.cellPercent, readWord_snd_of_fail _ _ _ h]
  · simp [Variant1.cellPercent, readWord_snd_of_fail _ _ _ h]
  · have hm : map ((0 : Nat) : Int) 0x9E4 0xD04 (-200) 600 = -2732 := by
      decide
    simp only [Variant0.getCellTemperature, readWord_snd_of_fail _ _ _ h, hm]
    norm_num
  · simp [Variant0.getThermistorB, readWord_snd_of_fail _ _ _ h]
  · simp [Variant0.getBattProfile, readWord_snd_of_fail _ _ _ h]

/-- Witness for C10 at a transport failure (`resp = none`): each getter
returns its zero-derived fallback. -/
theorem getters_mask_read_failure_witness :
    Variant0.getICversion none = 0 ∧ Variant0.cellVoltage none = 0 ∧
    Variant0.cellPercent none = 0 ∧ Variant1.cellPercent none = 100 ∧
    Variant0.getCellTemperature none = -2732 / 10 ∧
    Variant0.getThermistorB none = 0 ∧ Variant0.getBattProfile none = 0 := by
  have h := getters_mask_read_failure none
  exact ⟨h.1 rfl, h.2.1 rfl, h.2.2.1 rfl, h.2.2.2.1 rfl, h.2.2.2.2.1 rfl,
    h.2.2.2.2.2.1 rfl, h.2.2.2.2.2.2 rfl⟩

/-- Counterexample to C10 as stated: on a failed read, part_000's
`cellPercent` returns 0.0 percent (its zero-initialized word over 10), not
the 10.0 percent the claim names. -/
theorem cellPercent_v0_failure_is_zero_not_ten :
    (readWord LC709203F_CMD_CELLITE none 0).1 = false ∧
    Variant0.cellPercent none = 0 ∧ Variant0.cellPercent none ≠ 10 := by
  refine ⟨rfl, ?_, ?_⟩ <;> simp [Variant0.cellPercent, readWord]

end LC709203F
